import Mathlib

/-!
Shallow embedding of the AiModularLibrary validated-call protocol
(src/Python/AiModularLibrary/main.py) and of the vendor adapters
(gemini_client.py, openai_client.py).  Provider interactions are
abstracted by an oracle: each router call either returns a response text
with an optional reported cost, or raises.  Costs are modelled by the
rationals; Python float arithmetic on the small non-negative cost values
is represented by exact arithmetic.
-/

namespace AiModularLibrary

/-- One routed provider call as seen by the orchestrator: either a result
dictionary holding the response text and (when present) a cost field, or a
raised exception. -/
inductive CallOutcome where
  | ok (response : String) (cost : Option ℚ)
  | err
deriving DecidableEq

/-- The provider behaviour backing one loop iteration of the checked call:
the three sample calls to the high model and the (at most one)
verification call to the budget model.  Later calls of the attempt are
consulted only if the code path reaches them. -/
structure AttemptOracle where
  s1 : CallOutcome
  s2 : CallOutcome
  s3 : CallOutcome
  v : CallOutcome
deriving DecidableEq

/-- The fields of one entry of model_config consulted by ai_call_checked. -/
structure ModelInfo where
  vendor : String
  type : String
deriving DecidableEq

/-- The dictionary returned by ai_call_checked on a non-raising path. -/
structure CheckedResult where
  prompt : String
  response : String
  model_used : String
  finish_reason : String
  attempts : ℕ
  cost : Option ℚ
deriving DecidableEq

/-- The exceptions ai_call_checked can raise: the ValueError for a vendor
outside the allow list, the two ValueError cases for a missing high or
budget model, and the re-raised call failure of a fifth attempt. -/
inductive CheckedError where
  | vendorNotAllowed
  | noHighModel
  | noBudgetModel
  | callFailed
deriving DecidableEq

/-- Python truthiness of the optional model name: None and the empty
string are falsy (`if not high_model`). -/
def pyTruthy : Option String → Bool
  | none => false
  | some s => !(s == "")

/-- The model-resolution scan of ai_call_checked (main.py lines 110-120):
one pass over the configured models, overwriting the high / budget slot on
every matching entry. -/
def findModels (models : List (String × ModelInfo)) (vendor : String) :
    Option String × Option String :=
  models.foldl
    (fun acc m =>
      if m.2.vendor = vendor then
        if m.2.type = "high" then (some m.1, acc.2)
        else if m.2.type = "budget" then (acc.1, some m.1)
        else acc
      else acc)
    (none, none)

/-- Python str.strip() with no argument: drop whitespace from both ends
(modelled on the character list so that it is structurally recursive). -/
def pyStrip (s : String) : String :=
  String.mk
    (((s.data.dropWhile Char.isWhitespace).reverse.dropWhile
        Char.isWhitespace).reverse)

/-- Cost accumulation site (`if check_for_price and cost in result:
total_cost += result[cost]`): a result without a cost field leaves the
total unchanged. -/
def addCost (cfp : Bool) (t : ℚ) (c : Option ℚ) : ℚ :=
  if cfp then
    match c with
    | some x => t + x
    | none => t
  else t

/-- Outcome of one loop iteration: success carries the validated response
and the running total, retry and failure carry the running total. -/
inductive AttemptStep where
  | success (resp : String) (total : ℚ)
  | retry (total : ℚ)
  | failed (total : ℚ)
deriving DecidableEq

/-- One iteration of the validation loop (main.py lines 148-227): three
sample calls, the identity check `len(set(responses)) == 1`, then the
verification call whose stripped response is compared against the
sentinel.  A raised call failure aborts the iteration, keeping the costs
already accumulated. -/
def runAttempt (a : AttemptOracle) (cfp : Bool) (t : ℚ) : AttemptStep :=
  match a.s1 with
  | .err => .failed t
  | .ok r1 c1 =>
    let t1 := addCost cfp t c1
    match a.s2 with
    | .err => .failed t1
    | .ok r2 c2 =>
      let t2 := addCost cfp t1 c2
      match a.s3 with
      | .err => .failed t2
      | .ok r3 c3 =>
        let t3 := addCost cfp t2 c3
        if r1 = r2 ∧ r1 = r3 then
          match a.v with
          | .err => .failed t3
          | .ok vr vc =>
            let t4 := addCost cfp t3 vc
            if pyStrip vr = "%FALSE%" then .retry t4
            else .success (pyStrip vr) t4
        else .retry t3

/-- Terminal state of the loop: either an iteration validated a response
(recording `attempt + 1`), or all iterations were consumed. -/
inductive LoopOut where
  | validated (resp : String) (attempts : ℕ) (total : ℚ)
  | exhausted (total : ℚ)
deriving DecidableEq

/-- The `for attempt in range(5)` loop of ai_call_checked, with the
remaining iteration count as fuel and the current attempt index `k`.  A
call failure is re-raised exactly when `attempt == 4` (main.py line 233),
otherwise the iteration is abandoned and the loop proceeds. -/
def runLoop (oracle : ℕ → AttemptOracle) (cfp : Bool) :
    ℕ → ℕ → ℚ → Except CheckedError LoopOut
  | 0, _, t => .ok (.exhausted t)
  | fuel + 1, k, t =>
    match runAttempt (oracle k) cfp t with
    | .success r t2 => .ok (.validated r (k + 1) t2)
    | .retry t2 => runLoop oracle cfp fuel (k + 1) t2
    | .failed t2 =>
      if k = 4 then .error .callFailed
      else runLoop oracle cfp fuel (k + 1) t2

/-- The vendor allow list of ai_call_checked. -/
def allowed_vendors : List String := ["OpenAI", "Anthropic", "Gemini"]

/-- ai_call_checked (main.py lines 56-258): vendor allow-list check, model
resolution with the two missing-model errors, then the bounded validation
loop; the success and exhaustion dictionaries carry a cost key exactly
when check_for_price was set. -/
def ai_call_checked (vendor prompt : String) (check_for_price : Bool)
    (models : List (String × ModelInfo)) (oracle : ℕ → AttemptOracle) :
    Except CheckedError CheckedResult :=
  if vendor ∈ allowed_vendors then
    let hm := (findModels models vendor).1
    let bm := (findModels models vendor).2
    if pyTruthy hm then
      if pyTruthy bm then
        let high_model := hm.getD ""
        let budget_model := bm.getD ""
        match runLoop oracle check_for_price 5 0 0 with
        | .error e => .error e
        | .ok (.validated r a t) =>
          .ok { prompt := prompt, response := r,
                model_used := high_model ++ " (validated by " ++ budget_model ++ ")",
                finish_reason := "validated", attempts := a,
                cost := if check_for_price then some t else none }
        | .ok (.exhausted t) =>
          .ok { prompt := prompt,
                response :=
                  "ERROR: Failed to get validated response after 5 attempts for vendor: "
                    ++ vendor,
                model_used := high_model ++ " (validation failed)",
                finish_reason := "validation_failed", attempts := 5,
                cost := if check_for_price then some t else none }
      else .error .noBudgetModel
    else .error .noHighModel
  else .error .vendorNotAllowed

/-! Vendor adapters.  The provider SDK interaction inside the try block is
abstracted by a reply value: either the fields the adapter reads from the
provider response object, or a raised provider exception. -/

/-- The config fields a vendor client reads for one model. -/
structure VendorModelInfo where
  vendor_model_id : String
  price_per_input_tokens : ℚ
  price_per_output_tokens : ℚ
deriving DecidableEq

/-- The result dictionary built by a vendor client call_api. -/
structure CallResult where
  response : String
  model_used : String
  finish_reason : String
  cost : Option ℚ
deriving DecidableEq

namespace GeminiClient

/-- The Gemini SDK interaction: generate_content either yields a response
object whose text the adapter reads, or raises. -/
inductive ProviderReply where
  | text (s : String)
  | fail
deriving DecidableEq

/-- gemini_client.py lines 58-65: cost from token counts and per-token
prices. -/
def calculate_cost (mi : VendorModelInfo) (input_tokens output_tokens : ℕ) : ℚ :=
  let input_cost := (input_tokens : ℚ) * mi.price_per_input_tokens
  let output_cost := (output_tokens : ℚ) * mi.price_per_output_tokens
  input_cost + output_cost

/-- gemini_client.py lines 67-70: token estimate as floored quarter of the
character count (Python len(text) // 4). -/
def estimate_tokens (text : String) : ℕ :=
  text.length / 4

/-- gemini_client.py lines 95-98: inline system tag when a truthy system
message is given. -/
def full_prompt (prompt : String) (system_message : Option String) : String :=
  if pyTruthy system_message then
    "[System: " ++ system_message.getD "" ++ "]\n\n" ++ prompt
  else prompt

/-- gemini_client.py call_api (lines 72-144): finish_reason is the literal
"stop"; when cost is requested both token counts are estimated, since the
adapter never reads a usage report. -/
def call_api (mi : VendorModelInfo) (prompt : String) (system_message : Option String)
    (cost_flag : Bool) (reply : ProviderReply) : Except String CallResult :=
  let fp := full_prompt prompt system_message
  match reply with
  | .fail => .error "Gemini API call failed"
  | .text rt =>
    .ok { response := rt, model_used := mi.vendor_model_id,
          finish_reason := "stop",
          cost := if cost_flag then
              some (calculate_cost mi (estimate_tokens fp) (estimate_tokens rt))
            else none }

end GeminiClient

namespace OpenAIClient

/-- The OpenAI SDK interaction: the chat completion either yields the
fields the adapter reads (message content, finish reason, usage token
counts), or raises. -/
inductive ProviderReply where
  | ok (content : String) (finish_reason : String)
      (prompt_tokens completion_tokens : ℕ)
  | fail
deriving DecidableEq

/-- openai_client.py lines 58-65: cost from token counts and per-token
prices. -/
def calculate_cost (mi : VendorModelInfo) (input_tokens output_tokens : ℕ) : ℚ :=
  let input_cost := (input_tokens : ℚ) * mi.price_per_input_tokens
  let output_cost := (output_tokens : ℚ) * mi.price_per_output_tokens
  input_cost + output_cost

/-- openai_client.py call_api (lines 67-134): finish_reason is forwarded
from the provider; token counts come from the usage report. -/
def call_api (mi : VendorModelInfo) (cost_flag : Bool) (reply : ProviderReply) :
    Except String CallResult :=
  match reply with
  | .fail => .error "OpenAI API call failed"
  | .ok content fr pt ct =>
    .ok { response := content, model_used := mi.vendor_model_id,
          finish_reason := fr,
          cost := if cost_flag then some (calculate_cost mi pt ct) else none }

end OpenAIClient

namespace AnthropicClient

/-- The Anthropic SDK interaction fields, as for the other message-based
vendor. -/
inductive ProviderReply where
  | ok (content : String) (finish_reason : String)
      (input_tokens output_tokens : ℕ)
  | fail
deriving DecidableEq

/-- Modelled from the spec: anthropic_client.py is not under src (it is
only imported by api_router.py); per the adapter contract the cost is
input_tokens * price_in + output_tokens * price_out with token counts
taken from the provider usage report, which this vendor supplies. -/
def calculate_cost (mi : VendorModelInfo) (input_tokens output_tokens : ℕ) : ℚ :=
  (input_tokens : ℚ) * mi.price_per_input_tokens
    + (output_tokens : ℚ) * mi.price_per_output_tokens

/-- Modelled from the spec: the call_api of the missing anthropic client,
with the same result shape as the other adapters and usage-reported token
counts. -/
def call_api (mi : VendorModelInfo) (cost_flag : Bool) (reply : ProviderReply) :
    Except String CallResult :=
  match reply with
  | .fail => .error "Anthropic API call failed"
  | .ok content fr it ot =>
    .ok { response := content, model_used := mi.vendor_model_id,
          finish_reason := fr,
          cost := if cost_flag then some (calculate_cost mi it ot) else none }

end AnthropicClient

/-! Observables used to state properties of the loop: the running total
carried by a step, the control-flow kind of a step, the list of costs the
calls of one iteration reported, and the reported costs of a whole run. -/

/-- The running total carried by an iteration outcome. -/
def stepTotal : AttemptStep → ℚ
  | .success _ t => t
  | .retry t => t
  | .failed t => t

/-- Control-flow outcome of one iteration, stripped of data. -/
inductive StepKind where
  | success
  | retry
  | failed
deriving DecidableEq

/-- The kind of an iteration outcome. -/
def kindOf : AttemptStep → StepKind
  | .success _ _ => .success
  | .retry _ => .retry
  | .failed _ => .failed

/-- The control flow of one iteration, read off the oracle alone: it
depends only on which calls raise and on the response texts, never on the
cost fields or the running total. -/
def attemptKind (a : AttemptOracle) : StepKind :=
  match a.s1 with
  | .err => .failed
  | .ok r1 _ =>
    match a.s2 with
    | .err => .failed
    | .ok r2 _ =>
      match a.s3 with
      | .err => .failed
      | .ok r3 _ =>
        if r1 = r2 ∧ r1 = r3 then
          match a.v with
          | .err => .failed
          | .ok vr _ => if pyStrip vr = "%FALSE%" then .retry else .success
        else .retry

/-- The costs reported by the calls one iteration actually performs, in
call order: calls after a raising call are never made, a made call that
raises reports nothing, and a made call without a cost field contributes
nothing. -/
def reportedCosts (a : AttemptOracle) : List ℚ :=
  match a with
  | ⟨.err, _, _, _⟩ => []
  | ⟨.ok _ c1, .err, _, _⟩ => c1.toList
  | ⟨.ok _ c1, .ok _ c2, .err, _⟩ => c1.toList ++ c2.toList
  | ⟨.ok r1 c1, .ok r2 c2, .ok r3 c3, v⟩ =>
    if r1 = r2 ∧ r1 = r3 then
      match v with
      | .err => c1.toList ++ c2.toList ++ c3.toList
      | .ok _ vc => c1.toList ++ c2.toList ++ c3.toList ++ vc.toList
    else c1.toList ++ c2.toList ++ c3.toList

/-- The costs reported by every call the loop performs from attempt index
k on, with the given remaining iteration budget, in call order. -/
def runReported (oracle : ℕ → AttemptOracle) : ℕ → ℕ → List ℚ
  | 0, _ => []
  | fuel + 1, k =>
    match attemptKind (oracle k) with
    | .success => reportedCosts (oracle k)
    | .retry => reportedCosts (oracle k) ++ runReported oracle fuel (k + 1)
    | .failed =>
      if k = 4 then reportedCosts (oracle k)
      else reportedCosts (oracle k) ++ runReported oracle fuel (k + 1)

/-- The first configured model with the given vendor and role, following
the spec wording of the resolution rule. -/
def firstRoleModel (models : List (String × ModelInfo)) (vendor role : String) :
    Option String :=
  ((models.filter (fun m => m.2.vendor == vendor && m.2.type == role)).head?).map
    Prod.fst

/-- The last configured model with the given vendor and role. -/
def lastRoleModel (models : List (String × ModelInfo)) (vendor role : String) :
    Option String :=
  ((models.filter (fun m => m.2.vendor == vendor && m.2.type == role)).getLast?).map
    Prod.fst

/-- The running total carried by a loop outcome. -/
def loopTotal : LoopOut → ℚ
  | .validated _ _ t => t
  | .exhausted t => t

/-- A result dictionary without a cost field leaves the running total
unchanged; one with a cost field adds exactly it. -/
theorem addCost_toList (t : ℚ) (c : Option ℚ) :
    addCost true t c = t + c.toList.sum := by
  cases c <;> simp [addCost]

/-- The control flow of an iteration is read off the oracle alone: it
does not depend on the running total, the cost fields, or the
check_for_price flag. -/
theorem runAttempt_kind (a : AttemptOracle) (cfp : Bool) (t : ℚ) :
    kindOf (runAttempt a cfp t) = attemptKind a := by
  obtain ⟨s1, s2, s3, v⟩ := a
  cases s1 with
  | err => rfl
  | ok r1 c1 =>
    cases s2 with
    | err => rfl
    | ok r2 c2 =>
      cases s3 with
      | err => rfl
      | ok r3 c3 =>
        by_cases hid : r1 = r2 ∧ r1 = r3
        · obtain ⟨rfl, rfl⟩ := hid
          cases v with
          | err => simp [runAttempt, attemptKind, kindOf]
          | ok vr vc =>
            by_cases hs : pyStrip vr = "%FALSE%" <;>
              simp [runAttempt, attemptKind, kindOf, hs]
        · simp [runAttempt, attemptKind, kindOf, hid]

/-- With cost tracking on, one iteration adds to the running total
exactly the sum of the costs its calls reported. -/
theorem runAttempt_total (a : AttemptOracle) (t : ℚ) :
    stepTotal (runAttempt a true t) = t + (reportedCosts a).sum := by
  obtain ⟨s1, s2, s3, v⟩ := a
  cases s1 with
  | err => simp [runAttempt, reportedCosts, stepTotal]
  | ok r1 c1 =>
    cases s2 with
    | err =>
      simp [runAttempt, reportedCosts, stepTotal, addCost_toList]
    | ok r2 c2 =>
      cases s3 with
      | err =>
        simp [runAttempt, reportedCosts, stepTotal, addCost_toList, add_assoc]
      | ok r3 c3 =>
        by_cases hid : r1 = r2 ∧ r1 = r3
        · obtain ⟨rfl, rfl⟩ := hid
          cases v with
          | err =>
            simp [runAttempt, reportedCosts, stepTotal, addCost_toList,
              add_assoc]
          | ok vr vc =>
            by_cases hs : pyStrip vr = "%FALSE%" <;>
              simp [runAttempt, reportedCosts, stepTotal, addCost_toList,
                hs, add_assoc]
        · simp [runAttempt, reportedCosts, stepTotal, addCost_toList, hid,
            add_assoc]

/-- Inversion of a successful iteration: it had three identical sample
responses, a verification call that returned, and a stripped verification
response different from the sentinel, which is the returned text. -/
theorem runAttempt_success_inv (a : AttemptOracle) (cfp : Bool) (t : ℚ)
    (r : String) (t2 : ℚ) (h : runAttempt a cfp t = .success r t2) :
    ∃ s c1 c2 c3 vr vc,
      a.s1 = .ok s c1 ∧ a.s2 = .ok s c2 ∧ a.s3 = .ok s c3 ∧
      a.v = .ok vr vc ∧ pyStrip vr ≠ "%FALSE%" ∧ r = pyStrip vr := by
  obtain ⟨s1, s2, s3, v⟩ := a
  cases s1 with
  | err => simp [runAttempt] at h
  | ok r1 c1 =>
    cases s2 with
    | err => simp [runAttempt] at h
    | ok r2 c2 =>
      cases s3 with
      | err => simp [runAttempt] at h
      | ok r3 c3 =>
        cases v with
        | err =>
          by_cases hid : r1 = r2 ∧ r1 = r3
          · obtain ⟨rfl, rfl⟩ := hid
            simp [runAttempt] at h
          · simp [runAttempt, hid] at h
        | ok vr vc =>
          by_cases hid : r1 = r2 ∧ r1 = r3
          · obtain ⟨rfl, rfl⟩ := hid
            by_cases hs : pyStrip vr = "%FALSE%"
            · simp [runAttempt, hs] at h
            · simp only [runAttempt, if_neg hs, if_pos (And.intro rfl rfl)] at h
              obtain ⟨hr, -⟩ := AttemptStep.success.inj h
              exact ⟨r1, c1, c2, c3, vr, vc, rfl, rfl, rfl, rfl, hs, hr.symm⟩
          · simp [runAttempt, hid] at h

/-- Inversion of a validated loop outcome: some iteration `j` within the
budget succeeded, and the recorded attempt count is `j + 1`. -/
theorem runLoop_validated (oracle : ℕ → AttemptOracle) (cfp : Bool) :
    ∀ fuel k t r a t2,
      runLoop oracle cfp fuel k t = .ok (.validated r a t2) →
      ∃ j tj, k ≤ j ∧ j < k + fuel ∧ a = j + 1 ∧
        runAttempt (oracle j) cfp tj = .success r t2 := by
  intro fuel
  induction fuel with
  | zero => intro k t r a t2 h; simp [runLoop] at h
  | succ fuel ih =>
    intro k t r a t2 h
    rw [runLoop] at h
    cases hs : runAttempt (oracle k) cfp t with
    | success r' t' =>
      rw [hs] at h
      obtain ⟨h1, h2, h3⟩ := LoopOut.validated.inj (Except.ok.inj h)
      exact ⟨k, t, le_rfl, by omega, h2.symm, by rw [hs, h1, h3]⟩
    | retry t' =>
      rw [hs] at h
      obtain ⟨j, tj, hkj, hlt, ha, hr⟩ := ih (k + 1) t' r a t2 h
      exact ⟨j, tj, by omega, by omega, ha, hr⟩
    | failed t' =>
      rw [hs] at h
      by_cases hk : k = 4
      · rw [hk] at h; simp at h
      · simp only [if_neg hk] at h
        obtain ⟨j, tj, hkj, hlt, ha, hr⟩ := ih (k + 1) t' r a t2 h
        exact ⟨j, tj, by omega, by omega, ha, hr⟩

/-- With cost tracking on, any non-raising loop outcome carries as total
the incoming total plus the sum of every reported cost of the run. -/
theorem runLoop_total (oracle : ℕ → AttemptOracle) :
    ∀ fuel k t out,
      runLoop oracle true fuel k t = .ok out →
      loopTotal out = t + (runReported oracle fuel k).sum := by
  intro fuel
  induction fuel with
  | zero =>
    intro k t out h
    rw [runLoop] at h
    obtain rfl := Except.ok.inj h
    simp [loopTotal, runReported]
  | succ fuel ih =>
    intro k t out h
    rw [runLoop] at h
    have hkind := runAttempt_kind (oracle k) true t
    have htot := runAttempt_total (oracle k) t
    cases hs : runAttempt (oracle k) true t with
    | success r' t' =>
      rw [hs] at h hkind htot
      obtain rfl := (Except.ok.inj h).symm
      rw [runReported, ← hkind]
      simp only [kindOf, loopTotal]
      simpa [stepTotal] using htot
    | retry t' =>
      rw [hs] at h hkind htot
      have hrec := ih (k + 1) t' out h
      rw [runReported, ← hkind]
      simp only [kindOf, List.sum_append]
      rw [hrec]
      simp only [stepTotal] at htot
      rw [htot]
      ring
    | failed t' =>
      rw [hs] at h hkind htot
      by_cases hk : k = 4
      · rw [hk] at h; simp at h
      · simp only [if_neg hk] at h
        have hrec := ih (k + 1) t' out h
        rw [runReported, ← hkind]
        simp only [kindOf, if_neg hk, List.sum_append]
        rw [hrec]
        simp only [stepTotal] at htot
        rw [htot]
        ring

/-- Inversion of a non-raising checked call: it went through the loop and
the result dictionary is either the validated or the exhausted one. -/
theorem ai_call_checked_ok_inv (vendor prompt : String) (cfp : Bool)
    (models : List (String × ModelInfo)) (oracle : ℕ → AttemptOracle)
    (res : CheckedResult)
    (h : ai_call_checked vendor prompt cfp models oracle = .ok res) :
    (∃ r a t, runLoop oracle cfp 5 0 0 = .ok (.validated r a t) ∧
        res.response = r ∧ res.attempts = a ∧ res.finish_reason = "validated" ∧
        res.cost = if cfp then some t else none) ∨
    (∃ t, runLoop oracle cfp 5 0 0 = .ok (.exhausted t) ∧
        res.finish_reason = "validation_failed" ∧ res.attempts = 5 ∧
        res.cost = if cfp then some t else none) := by
  simp only [ai_call_checked] at h
  by_cases hv : vendor ∈ allowed_vendors
  · rw [if_pos hv] at h
    by_cases h1 : pyTruthy (findModels models vendor).1 = true
    · rw [if_pos h1] at h
      by_cases h2 : pyTruthy (findModels models vendor).2 = true
      · rw [if_pos h2] at h
        cases hr : runLoop oracle cfp 5 0 0 with
        | error e => rw [hr] at h; simp at h
        | ok out =>
          rw [hr] at h
          cases out with
          | validated r a t =>
            obtain rfl := (Except.ok.inj h).symm
            exact Or.inl ⟨r, a, t, rfl, rfl, rfl, rfl, rfl⟩
          | exhausted t =>
            obtain rfl := (Except.ok.inj h).symm
            exact Or.inr ⟨t, rfl, rfl, rfl, rfl⟩
      · rw [if_neg h2] at h; simp at h
    · rw [if_neg h1] at h; simp at h
  · rw [if_neg hv] at h; simp at h

/-- If no call of any iteration reports a cost, the run reports no cost
at all. -/
theorem runReported_nil (oracle : ℕ → AttemptOracle)
    (h : ∀ j, reportedCosts (oracle j) = []) :
    ∀ fuel k, runReported oracle fuel k = [] := by
  intro fuel
  induction fuel with
  | zero => intro k; rfl
  | succ fuel ih =>
    intro k
    rw [runReported]
    cases hk : attemptKind (oracle k) with
    | success => exact h k
    | retry => rw [h k, ih (k + 1)]; rfl
    | failed =>
      by_cases h4 : k = 4
      · rw [if_pos h4]; exact h k
      · rw [if_neg h4, h k, ih (k + 1)]; rfl

/-- Appending one configured model to the registry updates the last
matching model of a role exactly when the new entry matches. -/
theorem lastRoleModel_append (ms : List (String × ModelInfo))
    (m : String × ModelInfo) (vendor role : String) :
    lastRoleModel (ms ++ [m]) vendor role =
      if m.2.vendor = vendor ∧ m.2.type = role then some m.1
      else lastRoleModel ms vendor role := by
  by_cases hp : m.2.vendor = vendor ∧ m.2.type = role
  · have hf : List.filter
        (fun x : String × ModelInfo => x.2.vendor == vendor && x.2.type == role)
        [m] = [m] := by
      simp [List.filter_cons, hp.1, hp.2]
    rw [if_pos hp]
    simp only [lastRoleModel, List.filter_append, hf, List.getLast?_concat]
    rfl
  · have hf : List.filter
        (fun x : String × ModelInfo => x.2.vendor == vendor && x.2.type == role)
        [m] = [] := by
      simp only [List.filter_cons, List.filter_nil]
      rw [if_neg]
      simp only [Bool.and_eq_true, beq_iff_eq]
      exact hp
    rw [if_neg hp]
    simp only [lastRoleModel, List.filter_append, hf, List.append_nil]

/-- Unfolding of the resolution scan on a registry extended by one
entry. -/
theorem findModels_append (ms : List (String × ModelInfo))
    (m : String × ModelInfo) (vendor : String) :
    findModels (ms ++ [m]) vendor =
      if m.2.vendor = vendor then
        if m.2.type = "high" then (some m.1, (findModels ms vendor).2)
        else if m.2.type = "budget" then ((findModels ms vendor).1, some m.1)
        else findModels ms vendor
      else findModels ms vendor := by
  simp only [findModels, List.foldl_append, List.foldl_cons, List.foldl_nil]

/-- The single overwriting scan of ai_call_checked resolves, for each of
the two roles, the LAST configured model with the matching vendor and
role. -/
theorem findModels_eq_last (models : List (String × ModelInfo)) (vendor : String) :
    findModels models vendor =
      (lastRoleModel models vendor "high", lastRoleModel models vendor "budget") := by
  induction models using List.reverseRecOn with
  | nil => rfl
  | append_singleton ms m ih =>
    rw [findModels_append, ih, lastRoleModel_append, lastRoleModel_append]
    by_cases hv : m.2.vendor = vendor
    · by_cases hh : m.2.type = "high"
      · have hb : ¬ m.2.type = "budget" := by rw [hh]; decide
        rw [if_pos hv, if_pos hh, if_pos ⟨hv, hh⟩, if_neg (fun hc => hb hc.2)]
      · by_cases hb : m.2.type = "budget"
        · rw [if_pos hv, if_neg hh, if_pos hb, if_neg (fun hc => hh hc.2),
            if_pos ⟨hv, hb⟩]
        · rw [if_pos hv, if_neg hh, if_neg hb, if_neg (fun hc => hh hc.2),
            if_neg (fun hc => hb hc.2)]
    · rw [if_neg hv, if_neg (fun hc => hv hc.1), if_neg (fun hc => hv hc.1)]

/-! Concrete fixtures used by witnesses and counterexamples. -/

/-- A registry with one high and one budget Gemini model. -/
def cfgTwo : List (String × ModelInfo) :=
  [("h", ⟨"Gemini", "high"⟩), ("b", ⟨"Gemini", "budget"⟩)]

/-- An oracle whose every call returns the text Paris and reports no
cost. -/
def oracleParis : ℕ → AttemptOracle := fun _ =>
  ⟨.ok "Paris" none, .ok "Paris" none, .ok "Paris" none, .ok "Paris" none⟩

/-- The result of the checked call on cfgTwo and oracleParis without cost
tracking. -/
def resParis : CheckedResult :=
  ⟨"q", "Paris", "h (validated by b)", "validated", 1, none⟩

/-- The result of the checked call on cfgTwo and oracleParis with cost
tracking: every call lacked a cost field, so the total stays zero. -/
def resTracked : CheckedResult :=
  ⟨"q", "Paris", "h (validated by b)", "validated", 1, some 0⟩

/-- An oracle whose calls always raise. -/
def oracleRaise : ℕ → AttemptOracle := fun _ => ⟨.err, .err, .err, .err⟩

/-- Claim C1: a checked-call result has status validated only if, in the
attempt that produced it, the three sampled high-model responses were
textually identical and the verification response differed from the
sentinel %FALSE%. -/
theorem checked_call_validated_requires_consensus_and_nonsentinel
    (vendor prompt : String) (cfp : Bool) (models : List (String × ModelInfo))
    (oracle : ℕ → AttemptOracle) (res : CheckedResult)
    (h : ai_call_checked vendor prompt cfp models oracle = .ok res)
    (hv : res.finish_reason = "validated") :
    ∃ k s c1 c2 c3 vr vc,
      k < 5 ∧ res.attempts = k + 1 ∧
      (oracle k).s1 = .ok s c1 ∧ (oracle k).s2 = .ok s c2 ∧
      (oracle k).s3 = .ok s c3 ∧ (oracle k).v = .ok vr vc ∧
      vr ≠ "%FALSE%" := by
  rcases ai_call_checked_ok_inv vendor prompt cfp models oracle res h with
    ⟨r, a, t, hloop, hresp, hatt, hfr, hcost⟩ | ⟨t, hloop, hfr, hatt, hcost⟩
  · obtain ⟨j, tj, hkj, hlt, ha, hra⟩ :=
      runLoop_validated oracle cfp 5 0 0 r a t hloop
    obtain ⟨s, c1, c2, c3, vr, vc, h1, h2, h3, h4, hns, hr⟩ :=
      runAttempt_success_inv (oracle j) cfp tj r t hra
    refine ⟨j, s, c1, c2, c3, vr, vc, by omega, by rw [hatt, ha], h1, h2, h3,
      h4, ?_⟩
    intro hvr
    apply hns
    rw [hvr]
    rfl
  · rw [hfr] at hv
    exact absurd hv (by decide)

/-- Witness for C1: the guard instantiated on a concrete validated run. -/
theorem checked_call_validated_requires_consensus_and_nonsentinel_witness :
    ∃ k s c1 c2 c3 vr vc,
      k < 5 ∧ resParis.attempts = k + 1 ∧
      (oracleParis k).s1 = .ok s c1 ∧ (oracleParis k).s2 = .ok s c2 ∧
      (oracleParis k).s3 = .ok s c3 ∧ (oracleParis k).v = .ok vr vc ∧
      vr ≠ "%FALSE%" :=
  checked_call_validated_requires_consensus_and_nonsentinel
    "Gemini" "q" false cfgTwo oracleParis resParis (by rfl) (by rfl)

/-- The attempt behaviour refuting the exactness in claim C2: identical
samples, then a verification response that is the sentinel surrounded by
whitespace. -/
def sentinelWsAttempt : AttemptOracle :=
  ⟨.ok "A" none, .ok "A" none, .ok "A" none, .ok " %FALSE%" none⟩

/-- Counterexample to claim C2 as stated: the verification response does
not equal the sentinel exactly, yet the attempt is treated as rejected
(the iteration yields retry, continuing the loop). -/
theorem sentinel_comparison_not_exact_cex :
    sentinelWsAttempt.v = CallOutcome.ok " %FALSE%" none ∧
    runAttempt sentinelWsAttempt false 0 = AttemptStep.retry 0 ∧
    (" %FALSE%" : String) ≠ "%FALSE%" :=
  ⟨rfl, rfl, by decide⟩

/-- Claim C2 amended: with three identical sample responses, the attempt
is treated as rejected if and only if the verification response equals
the sentinel %FALSE% after stripping leading and trailing whitespace. -/
theorem sentinel_rejection_iff_stripped (r vr : String)
    (c1 c2 c3 vc : Option ℚ) (cfp : Bool) (t : ℚ) :
    (∃ t2, runAttempt ⟨.ok r c1, .ok r c2, .ok r c3, .ok vr vc⟩ cfp t =
        AttemptStep.retry t2) ↔ pyStrip vr = "%FALSE%" := by
  constructor
  · rintro ⟨t2, h⟩
    by_cases hs : pyStrip vr = "%FALSE%"
    · exact hs
    · simp [runAttempt, hs] at h
  · intro hs
    refine ⟨addCost cfp (addCost cfp (addCost cfp (addCost cfp t c1) c2) c3) vc, ?_⟩
    simp [runAttempt, hs]

/-- The oracle refuting the verbatim-return part of claim C3: the budget
verification response carries a trailing newline. -/
def verifNewlineOracle : ℕ → AttemptOracle := fun _ =>
  ⟨.ok "X" none, .ok "X" none, .ok "X" none, .ok "Paris\n" none⟩

/-- The result of the checked call on cfgTwo and verifNewlineOracle. -/
def resStripped : CheckedResult :=
  ⟨"p", "Paris", "h (validated by b)", "validated", 1, none⟩

/-- Counterexample to claim C3 as stated: the verification response was
the text Paris followed by a newline, but the returned response text is
the stripped text Paris, not the verification response itself. -/
theorem validated_response_not_verbatim_cex :
    ai_call_checked "Gemini" "p" false cfgTwo verifNewlineOracle =
      Except.ok resStripped ∧
    (verifNewlineOracle 0).v = CallOutcome.ok "Paris\n" none ∧
    resStripped.finish_reason = "validated" ∧
    resStripped.response ≠ "Paris\n" :=
  ⟨rfl, rfl, rfl, by decide⟩

/-- Claim C3 amended: when the checked call succeeds on attempt k, the
returned response text is the whitespace-stripped budget verification
response (so the budget model text, not a high-model sample), the status
is validated, the attempts field equals k, and a cost field is present
exactly when cost tracking was requested. -/
theorem validated_result_reports_stripped_verification
    (vendor prompt : String) (cfp : Bool) (models : List (String × ModelInfo))
    (oracle : ℕ → AttemptOracle) (res : CheckedResult)
    (h : ai_call_checked vendor prompt cfp models oracle = .ok res)
    (hv : res.finish_reason = "validated") :
    ∃ k vr vc, k < 5 ∧ res.attempts = k + 1 ∧
      (oracle k).v = .ok vr vc ∧ res.response = pyStrip vr ∧
      res.cost.isSome = cfp := by
  rcases ai_call_checked_ok_inv vendor prompt cfp models oracle res h with
    ⟨r, a, t, hloop, hresp, hatt, hfr, hcost⟩ | ⟨t, hloop, hfr, hatt, hcost⟩
  · obtain ⟨j, tj, hkj, hlt, ha, hra⟩ :=
      runLoop_validated oracle cfp 5 0 0 r a t hloop
    obtain ⟨s, c1, c2, c3, vr, vc, h1, h2, h3, h4, hns, hr⟩ :=
      runAttempt_success_inv (oracle j) cfp tj r t hra
    refine ⟨j, vr, vc, by omega, by rw [hatt, ha], h4, by rw [hresp, hr], ?_⟩
    rw [hcost]
    cases cfp <;> rfl
  · rw [hfr] at hv
    exact absurd hv (by decide)

/-- Witness for the amended C3 on a concrete validated run. -/
theorem validated_result_reports_stripped_verification_witness :
    ∃ k vr vc, k < 5 ∧ resParis.attempts = k + 1 ∧
      (oracleParis k).v = .ok vr vc ∧ resParis.response = pyStrip vr ∧
      resParis.cost.isSome = false :=
  validated_result_reports_stripped_verification
    "Gemini" "q" false cfgTwo oracleParis resParis (by rfl) (by rfl)

/-- Claim C4: a call failure inside an iteration with attempt index other
than 4 is absorbed (the loop proceeds to the next attempt with the costs
kept); on attempt index 4, the fifth and final attempt, the failure is
re-raised, and the checked call propagates it to the caller as a terminal
error rather than returning a validation_failed result. -/
theorem final_attempt_failure_propagates (oracle : ℕ → AttemptOracle)
    (cfp : Bool) :
    (∀ fuel k t t2, runAttempt (oracle k) cfp t = AttemptStep.failed t2 →
        k ≠ 4 →
        runLoop oracle cfp (fuel + 1) k t = runLoop oracle cfp fuel (k + 1) t2) ∧
    (∀ fuel k t t2, runAttempt (oracle k) cfp t = AttemptStep.failed t2 →
        k = 4 →
        runLoop oracle cfp (fuel + 1) k t = Except.error CheckedError.callFailed) ∧
    (∀ vendor prompt models, vendor ∈ allowed_vendors →
        pyTruthy (findModels models vendor).1 = true →
        pyTruthy (findModels models vendor).2 = true →
        runLoop oracle cfp 5 0 0 = Except.error CheckedError.callFailed →
        ai_call_checked vendor prompt cfp models oracle =
          Except.error CheckedError.callFailed) := by
  refine ⟨?_, ?_, ?_⟩
  · intro fuel k t t2 hf hk
    rw [runLoop, hf]
    simp [hk]
  · intro fuel k t t2 hf hk
    subst hk
    rw [runLoop, hf]
    rfl
  · intro vendor prompt models hv h1 h2 hloop
    simp only [ai_call_checked]
    rw [if_pos hv, if_pos h1, if_pos h2, hloop]

/-- Witness for C4: a concrete failing fifth attempt raises, and the
checked call surfaces the terminal error. -/
theorem final_attempt_failure_propagates_witness :
    runLoop oracleRaise false 1 4 0 = Except.error CheckedError.callFailed ∧
    ai_call_checked "Gemini" "q" false cfgTwo oracleRaise =
      Except.error CheckedError.callFailed :=
  ⟨(final_attempt_failure_propagates oracleRaise false).2.1 0 4 0 0 rfl rfl,
   (final_attempt_failure_propagates oracleRaise false).2.2 "Gemini" "q" cfgTwo
     (by decide) rfl rfl rfl⟩

/-- A registry with two high models for the same vendor, exposing which
one the scan resolves. -/
def cfgDupHigh : List (String × ModelInfo) :=
  [("h1", ⟨"Gemini", "high"⟩), ("h2", ⟨"Gemini", "high"⟩), ("b1", ⟨"Gemini", "budget"⟩)]

/-- The result of the checked call on cfgDupHigh and oracleParis. -/
def resLastHigh : CheckedResult :=
  ⟨"p", "Paris", "h2 (validated by b1)", "validated", 1, none⟩

/-- Counterexample to claim C5 as stated: with two high-role models for
the vendor, the code resolves the last matching entry h2, not the first
matching entry h1, observable in the model_used field. -/
theorem role_resolution_not_first_cex :
    (findModels cfgDupHigh "Gemini").1 = some "h2" ∧
    firstRoleModel cfgDupHigh "Gemini" "high" = some "h1" ∧
    (some "h2" : Option String) ≠ some "h1" ∧
    ai_call_checked "Gemini" "p" false cfgDupHigh oracleParis =
      Except.ok resLastHigh :=
  ⟨rfl, rfl, by decide, rfl⟩

/-- Claim C5 amended: the checked call resolves the high-role and
budget-role models as the LAST model in the registry with the matching
vendor and role (later entries overwrite earlier ones); when the vendor
lacks a truthy high-role or budget-role model the call fails with the
corresponding missing-role error for every oracle, hence before issuing
any provider call and with zero cost incurred. -/
theorem role_resolution_last_and_missing_role_fails :
    (∀ models vendor, findModels models vendor =
        (lastRoleModel models vendor "high", lastRoleModel models vendor "budget")) ∧
    (∀ vendor prompt cfp models oracle, vendor ∈ allowed_vendors →
        pyTruthy (findModels models vendor).1 = false →
        ai_call_checked vendor prompt cfp models oracle =
          Except.error CheckedError.noHighModel) ∧
    (∀ vendor prompt cfp models oracle, vendor ∈ allowed_vendors →
        pyTruthy (findModels models vendor).1 = true →
        pyTruthy (findModels models vendor).2 = false →
        ai_call_checked vendor prompt cfp models oracle =
          Except.error CheckedError.noBudgetModel) := by
  refine ⟨findModels_eq_last, ?_, ?_⟩
  · intro vendor prompt cfp models oracle hv h1
    simp only [ai_call_checked]
    rw [if_pos hv, if_neg]
    rw [h1]
    simp
  · intro vendor prompt cfp models oracle hv h1 h2
    simp only [ai_call_checked]
    rw [if_pos hv, if_pos h1, if_neg]
    rw [h2]
    simp

/-- Witness for the amended C5: an empty registry has no high model, so
the checked call fails with the missing-high-model error. -/
theorem role_resolution_missing_role_witness :
    ai_call_checked "Gemini" "p" false [] oracleParis =
      Except.error CheckedError.noHighModel :=
  role_resolution_last_and_missing_role_fails.2.1 "Gemini" "p" false []
    oracleParis (by decide) rfl

/-- Claim C6: every checked-call result has an attempts field in [1, 5],
and it equals 5 whenever the status is validation_failed. -/
theorem attempts_bounds (vendor prompt : String) (cfp : Bool)
    (models : List (String × ModelInfo)) (oracle : ℕ → AttemptOracle)
    (res : CheckedResult)
    (h : ai_call_checked vendor prompt cfp models oracle = .ok res) :
    1 ≤ res.attempts ∧ res.attempts ≤ 5 ∧
      (res.finish_reason = "validation_failed" → res.attempts = 5) := by
  rcases ai_call_checked_ok_inv vendor prompt cfp models oracle res h with
    ⟨r, a, t, hloop, hresp, hatt, hfr, hcost⟩ | ⟨t, hloop, hfr, hatt, hcost⟩
  · obtain ⟨j, tj, hkj, hlt, ha, hra⟩ :=
      runLoop_validated oracle cfp 5 0 0 r a t hloop
    refine ⟨by omega, by omega, ?_⟩
    intro hx
    rw [hfr] at hx
    exact absurd hx (by decide)
  · exact ⟨by omega, by omega, fun _ => hatt⟩

/-- Witness for C6 on a concrete validated run. -/
theorem attempts_bounds_witness :
    1 ≤ resParis.attempts ∧ resParis.attempts ≤ 5 ∧
      (resParis.finish_reason = "validation_failed" → resParis.attempts = 5) :=
  attempts_bounds "Gemini" "q" false cfgTwo oracleParis resParis (by rfl)

/-- Claim C7: with cost tracking on, the running total never decreases
across an iteration when the reported costs are non-negative, and the
cost field of any checked-call result equals the sum of every cost
reported by the individual calls of that invocation. -/
theorem cost_monotone_and_total_sum :
    (∀ a t, (∀ c ∈ reportedCosts a, 0 ≤ c) →
        t ≤ stepTotal (runAttempt a true t)) ∧
    (∀ vendor prompt models oracle res,
        ai_call_checked vendor prompt true models oracle = Except.ok res →
        res.cost = some ((runReported oracle 5 0).sum)) := by
  constructor
  · intro a t hc
    rw [runAttempt_total]
    have hnn : 0 ≤ (reportedCosts a).sum := List.sum_nonneg hc
    linarith
  · intro vendor prompt models oracle res h
    rcases ai_call_checked_ok_inv vendor prompt true models oracle res h with
      ⟨r, a, t, hloop, hresp, hatt, hfr, hcost⟩ | ⟨t, hloop, hfr, hatt, hcost⟩
    · have htot := runLoop_total oracle 5 0 0 _ hloop
      simp only [loopTotal, zero_add] at htot
      rw [hcost, if_pos rfl, htot]
    · have htot := runLoop_total oracle 5 0 0 _ hloop
      simp only [loopTotal, zero_add] at htot
      rw [hcost, if_pos rfl, htot]

/-- Witness for C7 on a concrete tracked run. -/
theorem cost_monotone_and_total_sum_witness :
    resTracked.cost = some ((runReported oracleParis 5 0).sum) :=
  cost_monotone_and_total_sum.2 "Gemini" "q" cfgTwo oracleParis resTracked
    (by rfl)

/-- Claim C8: when cost tracking is requested, every adapter reports
cost = input_tokens * price_per_input_token + output_tokens *
price_per_output_token; the Gemini adapter estimates both token counts as
the character count divided by four rounded down (it never reads a usage
report), while the OpenAI and Anthropic adapters take the token counts
from the provider usage report. -/
theorem adapter_cost_formula :
    (∀ mi prompt sys rt r,
        GeminiClient.call_api mi prompt sys true (.text rt) = Except.ok r →
        r.cost = some
          ((GeminiClient.estimate_tokens (GeminiClient.full_prompt prompt sys) : ℚ)
              * mi.price_per_input_tokens
            + (GeminiClient.estimate_tokens rt : ℚ) * mi.price_per_output_tokens)) ∧
    (∀ mi content fr pt ct r,
        OpenAIClient.call_api mi true (.ok content fr pt ct) = Except.ok r →
        r.cost = some
          ((pt : ℚ) * mi.price_per_input_tokens
            + (ct : ℚ) * mi.price_per_output_tokens)) ∧
    (∀ mi content fr it ot r,
        AnthropicClient.call_api mi true (.ok content fr it ot) = Except.ok r →
        r.cost = some
          ((it : ℚ) * mi.price_per_input_tokens
            + (ot : ℚ) * mi.price_per_output_tokens)) ∧
    (∀ text, GeminiClient.estimate_tokens text = text.length / 4) := by
  refine ⟨?_, ?_, ?_, fun _ => rfl⟩
  · intro mi prompt sys rt r h
    simp only [GeminiClient.call_api] at h
    obtain rfl := (Except.ok.inj h).symm
    simp [GeminiClient.calculate_cost]
  · intro mi content fr pt ct r h
    simp only [OpenAIClient.call_api] at h
    obtain rfl := (Except.ok.inj h).symm
    simp [OpenAIClient.calculate_cost]
  · intro mi content fr it ot r h
    simp only [AnthropicClient.call_api] at h
    obtain rfl := (Except.ok.inj h).symm
    simp [AnthropicClient.calculate_cost]

/-- Witness for C8 on a concrete Gemini call. -/
theorem adapter_cost_formula_witness :
    ({ response := "hello", model_used := "g", finish_reason := "stop",
       cost := some (GeminiClient.calculate_cost ⟨"g", 1, 2⟩
         (GeminiClient.estimate_tokens (GeminiClient.full_prompt "hi there" none))
         (GeminiClient.estimate_tokens "hello")) } : CallResult).cost =
      some ((GeminiClient.estimate_tokens (GeminiClient.full_prompt "hi there" none) : ℚ) * 1
        + (GeminiClient.estimate_tokens "hello" : ℚ) * 2) :=
  adapter_cost_formula.1 ⟨"g", 1, 2⟩ "hi there" none "hello" _ (by rfl)

/-- Claim C9: every successful Gemini adapter call reports finish_reason
equal to the literal stop, never length or other, whatever the provider
reply was. -/
theorem gemini_finish_reason_always_stop (mi : VendorModelInfo)
    (prompt : String) (sys : Option String) (cost_flag : Bool)
    (reply : GeminiClient.ProviderReply) (r : CallResult)
    (h : GeminiClient.call_api mi prompt sys cost_flag reply = Except.ok r) :
    r.finish_reason = "stop" ∧ r.finish_reason ≠ "length" ∧
      r.finish_reason ≠ "other" := by
  cases reply with
  | fail => simp [GeminiClient.call_api] at h
  | text rt =>
    simp only [GeminiClient.call_api] at h
    obtain rfl := (Except.ok.inj h).symm
    exact ⟨rfl, by simp, by simp⟩

/-- Witness for C9 on a concrete Gemini call. -/
theorem gemini_finish_reason_always_stop_witness :
    ({ response := "hello", model_used := "g", finish_reason := "stop",
       cost := none } : CallResult).finish_reason = "stop" ∧
    ({ response := "hello", model_used := "g", finish_reason := "stop",
       cost := none } : CallResult).finish_reason ≠ "length" ∧
    ({ response := "hello", model_used := "g", finish_reason := "stop",
       cost := none } : CallResult).finish_reason ≠ "other" :=
  gemini_finish_reason_always_stop ⟨"g", 1, 2⟩ "hi" none false
    (.text "hello") _ (by rfl)

/-- Claim C10: with cost tracking on, a call result without a cost field
contributes exactly zero to the total and is silently skipped; an
iteration adds exactly the sum of the costs that were reported; and a
run in which no call reports a cost ends with total cost zero rather
than an error. -/
theorem missing_cost_skipped :
    (∀ t, addCost true t none = t) ∧
    (∀ a t, stepTotal (runAttempt a true t) = t + (reportedCosts a).sum) ∧
    (∀ vendor prompt models oracle res,
        (∀ j, reportedCosts (oracle j) = []) →
        ai_call_checked vendor prompt true models oracle = Except.ok res →
        res.cost = some 0) := by
  refine ⟨fun t => rfl, runAttempt_total, ?_⟩
  intro vendor prompt models oracle res hnone h
  rcases ai_call_checked_ok_inv vendor prompt true models oracle res h with
    ⟨r, a, t, hloop, hresp, hatt, hfr, hcost⟩ | ⟨t, hloop, hfr, hatt, hcost⟩
  · have htot := runLoop_total oracle 5 0 0 _ hloop
    simp only [loopTotal, zero_add] at htot
    rw [hcost, if_pos rfl, htot, runReported_nil oracle hnone 5 0]
    rfl
  · have htot := runLoop_total oracle 5 0 0 _ hloop
    simp only [loopTotal, zero_add] at htot
    rw [hcost, if_pos rfl, htot, runReported_nil oracle hnone 5 0]
    rfl

/-- Witness for C10 on a concrete run in which no call reports a cost. -/
theorem missing_cost_skipped_witness : resTracked.cost = some 0 :=
  missing_cost_skipped.2.2 "Gemini" "q" cfgTwo oracleParis resTracked
    (fun _ => rfl) (by rfl)

end AiModularLibrary
